import Mathlib

set_option maxHeartbeats 1000000
set_option linter.dupNamespace false

/-!
Verification of the luna JSON navigation library.

The repository provides fail-deferred accessors over a decoded JSON value
tree.  Two implementations coexist in the sources: an interface-based one
(`json.go`: `valueMap`/`errorMap`/`valueArray`/`errorArray`, no path
tracking) and a path-tracking one (`Map` in the `luna` package, `Array` in
`array.go`, `path` in `path.go`).  Both are embedded below, each definition
transcribed from the cited file.
-/

/-- The generic decoded JSON value: the dynamic types a Go `interface` value
holds after `encoding/json` decoding — `nil`, `bool`, `float64`, `string`,
`[]interface` and `map[string]interface`.  Numbers are modelled as rationals
(every decoded `float64` is one). -/
inductive JValue where
  | null
  | bool (b : Bool)
  | num (q : ℚ)
  | str (s : String)
  | arr (elems : List JValue)
  | obj (fields : List (String × JValue))

/-- Go `fmt` `%T` rendering of the dynamic type of a decoded JSON value, as it
appears in the library's error messages. -/
def goType : JValue → String
  | .null => "<nil>"
  | .bool _ => "bool"
  | .num _ => "float64"
  | .str _ => "string"
  | .arr _ => "[]interface \x7b\x7d"
  | .obj _ => "map[string]interface \x7b\x7d"

/-- Go map read `m[key]`: the decoded object is modelled as an association
list with distinct keys; `lookupKey` returns the value stored at `key`. -/
def lookupKey (key : String) : List (String × JValue) → Option JValue
  | [] => none
  | (k, v) :: rest => if k = key then some v else lookupKey key rest

/-- Go conversion `int(f)` of a `float64`: the fractional part is discarded,
rounding toward zero (Go spec, "Conversions between numeric types"). -/
def truncRat (q : ℚ) : Int :=
  if 0 ≤ q then (q.num.toNat / q.den : Nat) else -((-q.num).toNat / q.den : Nat)

/-- Go's `for k := range m` yields the keys of `m` in an unspecified order
(the runtime randomizes it).  An embedding of one run of the program fixes,
for each map, the order that run observed; it is always some permutation of
the key set. -/
def KeyOrder := List (String × JValue) → List String

/-- One legitimate key order: insertion order of the association list. -/
def insertionOrder : KeyOrder := fun m => m.map Prod.fst

/-- Another legitimate key order: the reverse of insertion order. -/
def reverseOrder : KeyOrder := fun m => (m.map Prod.fst).reverse

/-- `valueArray.validateIndex` (json.go lines 58–63) and
`Array.validateIndex` (array.go lines 41–46), identical text in both files:
an index outside `[0, len)` yields
`invalid index: %d; it should be between 0 and %d` with `len-1`. -/
def validateIndex (a : List JValue) (idx : Int) : Option String :=
  if idx < 0 ∨ (a.length : Int) ≤ idx then
    some ("invalid index: " ++ toString idx ++ "; it should be between 0 and "
      ++ toString ((a.length : Int) - 1))
  else none

/-- The message produced by `validateIndex` for an out-of-range index. -/
def invalidIndexMsg (idx : Int) (len : Nat) : String :=
  "invalid index: " ++ toString idx ++ "; it should be between 0 and "
    ++ toString ((len : Int) - 1)

/-- Go slice read `a[idx]`, used only after `validateIndex` passed. -/
def getIdx (a : List JValue) (idx : Int) : JValue :=
  (a.get? idx.toNat).getD JValue.null

/-- Error template of json.go for a map value of the wrong dynamic type:
`item with key %s was a %T, not a <want>`.  The same template (without path)
is also used by `Map.Float`/`Map.Bool` of the path-tracking version. -/
def goKeyMismatchMsg (key : String) (v : JValue) (want : String) : String :=
  "item with key " ++ key ++ " was a " ++ goType v ++ ", not a " ++ want

/-- Error template for an array element of the wrong dynamic type:
`item at index %d was a %T, not a <want>` (json.go and array.go). -/
def goIdxMismatchMsg (idx : Int) (v : JValue) (want : String) : String :=
  "item at index " ++ toString idx ++ " was a " ++ goType v ++ ", not a " ++ want

/-- Go `strings.Join(elems, sep)`: concatenation with `sep` between
consecutive elements (same result as `String.intercalate`). -/
def goJoin (sep : String) : List String → String
  | [] => ""
  | [x] => x
  | x :: xs => x ++ sep ++ goJoin sep xs

/-- `valueMap.validateKey` message (json.go lines 250–259):
`key not found: %s, valid keys: %+v` with the keys joined by `, `. -/
def goKeyNotFoundMsg (key : String) (validKeys : List String) : String :=
  "key not found: " ++ key ++ ", valid keys: " ++ goJoin ", " validKeys

/-- Modelled from the spec (section 6): serialization is delegated to the
external `encoding/json` encoder, whose byte-level conventions the spec
leaves unspecified; emitted bytes are therefore represented by the value
tree they decode back to.  Go's `json.Marshal` of a struct emits only its
exported fields; `valueMap`, `valueArray`, `Map` and `Array` declare none,
so marshaling the wrapper struct (as `Bytes` does) emits the empty JSON
object. -/
def marshalStructNoExportedFields : JValue := JValue.obj []

/-- Alias for `String` used in accessor method signatures: several methods
share their Go name with a builtin type and, inside the method's namespace,
the bare type name would resolve to the method instead. -/
abbrev GoStr := String

/-- Alias for `Bool` (see `GoStr`). -/
abbrev GoBool := Bool

/-- Alias for `Int` (see `GoStr`). -/
abbrev GoInt := Int

namespace GoJson

/-- json.go: a `Map` interface value is either a `valueMap` (lines 205–351)
or an `errorMap` (lines 353–425). -/
inductive Map where
  | valueMap (m : List (String × JValue))
  | errorMap (err : String)

/-- json.go: an `Array` interface value is either a `valueArray`
(lines 54–203) or an `errorArray` (lines 427–507). -/
inductive Array where
  | valueArray (a : List JValue)
  | errorArray (err : String)

/-- json.go `NewMap` (lines 46–48); a nil Go map reads like an empty one. -/
def NewMap (m : List (String × JValue)) : Map := .valueMap m

/-- json.go `NewArray` (lines 50–52). -/
def NewArray (a : List JValue) : Array := .valueArray a

/-- `valueMap.MustHas` (209–212): key membership, cannot fail. -/
def valueMapMustHas (m : List (String × JValue)) (key : String) : Bool :=
  (lookupKey key m).isSome

/-- `valueMap.validateKey` (250–259): absent key yields the key-not-found
message listing the valid keys in Go map iteration order `ord`. -/
def valueMapValidateKey (ord : KeyOrder) (m : List (String × JValue))
    (key : String) : Option String :=
  if valueMapMustHas m key then none else some (goKeyNotFoundMsg key (ord m))

/-- `Map.Err`: `valueMap.Err` (246–248) returns nil, `errorMap.Err`
(389–391) returns the frozen error. -/
def Map.Err : GoJson.Map → Option GoStr
  | .valueMap _ => none
  | .errorMap e => some e

/-- `Map.Has`: `valueMap.Has` (332–335) and `errorMap.Has` (397–399). -/
def Map.Has : GoJson.Map → GoStr → GoBool × Option GoStr
  | .valueMap m, key => ((lookupKey key m).isSome, none)
  | .errorMap e, _ => (false, some e)

/-- `Map.String`: `valueMap.String` (261–270) validates the key then type
asserts; `errorMap.String` (401–403) returns the frozen error. -/
def Map.String (ord : KeyOrder) : GoJson.Map → GoStr → GoStr × Option GoStr
  | .errorMap e, _ => ("", some e)
  | .valueMap m, key =>
    match valueMapValidateKey ord m key with
    | some e => ("", some e)
    | none =>
      match lookupKey key m with
      | some (JValue.str s) => (s, none)
      | some v => ("", some (goKeyMismatchMsg key v "string"))
      | none => ("", some (goKeyMismatchMsg key JValue.null "string"))

/-- `Map.Float`: `valueMap.Float` (272–281), `errorMap.Float` (405–407). -/
def Map.Float (ord : KeyOrder) : GoJson.Map → GoStr → ℚ × Option GoStr
  | .errorMap e, _ => (0, some e)
  | .valueMap m, key =>
    match valueMapValidateKey ord m key with
    | some e => (0, some e)
    | none =>
      match lookupKey key m with
      | some (JValue.num q) => (q, none)
      | some v => (0, some (goKeyMismatchMsg key v "float"))
      | none => (0, some (goKeyMismatchMsg key JValue.null "float"))

/-- `Map.Int`: `valueMap.Int` (283–289) delegates to `Float` and converts
with `int(f)`; `errorMap.Int` (409–411) returns the frozen error. -/
def Map.Int (ord : KeyOrder) : GoJson.Map → GoStr → GoInt × Option GoStr
  | .errorMap e, _ => (0, some e)
  | .valueMap m, key =>
    match Map.Float ord (.valueMap m) key with
    | (_, some e) => (0, some e)
    | (f, none) => (truncRat f, none)

/-- `Map.Bool`: `valueMap.Bool` (291–300), `errorMap.Bool` (413–415). -/
def Map.Bool (ord : KeyOrder) : GoJson.Map → GoStr → GoBool × Option GoStr
  | .errorMap e, _ => (false, some e)
  | .valueMap m, key =>
    match valueMapValidateKey ord m key with
    | some e => (false, some e)
    | none =>
      match lookupKey key m with
      | some (JValue.bool b) => (b, none)
      | some v => (false, some (goKeyMismatchMsg key v "bool"))
      | none => (false, some (goKeyMismatchMsg key JValue.null "bool"))

/-- `Map.Map`: `valueMap.Map` (302–311), `errorMap.Map` (417–419) returns
the receiver itself. -/
def Map.Map (ord : KeyOrder) : GoJson.Map → GoStr → GoJson.Map
  | .errorMap e, _ => .errorMap e
  | .valueMap m, key =>
    match valueMapValidateKey ord m key with
    | some e => .errorMap e
    | none =>
      match lookupKey key m with
      | some (JValue.obj mm) => .valueMap mm
      | some v => .errorMap (goKeyMismatchMsg key v "map")
      | none => .errorMap (goKeyMismatchMsg key JValue.null "map")

/-- `Map.Array`: `valueMap.Array` (313–322), `errorMap.Array` (421–425)
returns an `errorArray` carrying the same error. -/
def Map.Array (ord : KeyOrder) : GoJson.Map → GoStr → GoJson.Array
  | .errorMap e, _ => .errorArray e
  | .valueMap m, key =>
    match valueMapValidateKey ord m key with
    | some e => .errorArray e
    | none =>
      match lookupKey key m with
      | some (JValue.arr a) => .valueArray a
      | some v => .errorArray (goKeyMismatchMsg key v "array")
      | none => .errorArray (goKeyMismatchMsg key JValue.null "array")

/-- `Map.Inner`: `valueMap.Inner` (345–347), `errorMap.Inner` (369–371). -/
def Map.Inner : GoJson.Map → List (GoStr × JValue) × Option GoStr
  | .valueMap m => (m, none)
  | .errorMap e => ([], some e)

/-- `Map.Bytes`: `valueMap.Bytes` (324–330) calls `json.Marshal(vm)` on the
wrapper struct (which has no exported fields); `errorMap.Bytes` (393–395)
returns the frozen error. -/
def Map.Bytes : GoJson.Map → Except GoStr JValue
  | .valueMap _ => .ok marshalStructNoExportedFields
  | .errorMap e => .error e

/-- `Map.MustBytes`: `valueMap.MustBytes` (337–343) marshals the inner map
`vm.m`; `errorMap.MustBytes` (361–363) panics with the frozen error. -/
def Map.MustBytes : GoJson.Map → Except GoStr JValue
  | .valueMap m => .ok (JValue.obj m)
  | .errorMap e => .error e

/-- `Map.MustHas`: `valueMap.MustHas` (209–212), `errorMap.MustHas`
(357–359) panics with the frozen error.  A panic is modelled as the
`Except.error` carrying the panic value. -/
def Map.MustHas : GoJson.Map → GoStr → Except GoStr GoBool
  | .valueMap m, key => .ok (valueMapMustHas m key)
  | .errorMap e, _ => .error e

/-- `Map.MustString`: `valueMap.MustString` (214–220) calls `String` and
panics on a non-nil error; `errorMap.MustString` (373–375) panics. -/
def Map.MustString (ord : KeyOrder) : GoJson.Map → GoStr → Except GoStr GoStr
  | .errorMap e, _ => .error e
  | .valueMap m, key =>
    match Map.String ord (.valueMap m) key with
    | (s, none) => .ok s
    | (_, some e) => .error e

/-- `Map.MustFloat`: `valueMap.MustFloat` (222–228), `errorMap.MustFloat`
(377–379). -/
def Map.MustFloat (ord : KeyOrder) : GoJson.Map → GoStr → Except GoStr ℚ
  | .errorMap e, _ => .error e
  | .valueMap m, key =>
    match Map.Float ord (.valueMap m) key with
    | (f, none) => .ok f
    | (_, some e) => .error e

/-- `Map.MustInt`: `valueMap.MustInt` (230–236), `errorMap.MustInt`
(381–383). -/
def Map.MustInt (ord : KeyOrder) : GoJson.Map → GoStr → Except GoStr GoInt
  | .errorMap e, _ => .error e
  | .valueMap m, key =>
    match Map.Int ord (.valueMap m) key with
    | (i, none) => .ok i
    | (_, some e) => .error e

/-- `Map.MustBool`: `valueMap.MustBool` (238–244), `errorMap.MustBool`
(385–387). -/
def Map.MustBool (ord : KeyOrder) : GoJson.Map → GoStr → Except GoStr GoBool
  | .errorMap e, _ => .error e
  | .valueMap m, key =>
    match Map.Bool ord (.valueMap m) key with
    | (b, none) => .ok b
    | (_, some e) => .error e

/-- `Map.MustInner`: `valueMap.MustInner` (349–351), `errorMap.MustInner`
(365–367). -/
def Map.MustInner : GoJson.Map → Except GoStr (List (GoStr × JValue))
  | .valueMap m => .ok m
  | .errorMap e => .error e

/-- `Array.Err`: `valueArray.Err` (201–203), `errorArray.Err` (447–449). -/
def Array.Err : GoJson.Array → Option GoStr
  | .valueArray _ => none
  | .errorArray e => some e

/-- `Array.Len`: `valueArray.Len` (165–167) returns the length with a nil
error; `errorArray.Len` (463–465) returns `(0, err)`. -/
def Array.Len : GoJson.Array → Nat × Option GoStr
  | .valueArray a => (a.length, none)
  | .errorArray e => (0, some e)

/-- `Array.String`: `valueArray.String` (101–111) validates the index then
type asserts; `errorArray.String` (467–469). -/
def Array.String : GoJson.Array → GoInt → GoStr × Option GoStr
  | .errorArray e, _ => ("", some e)
  | .valueArray a, idx =>
    match validateIndex a idx with
    | some e => ("", some e)
    | none =>
      match getIdx a idx with
      | JValue.str s => (s, none)
      | v => ("", some (goIdxMismatchMsg idx v "string"))

/-- `Array.Float`: `valueArray.Float` (113–123), `errorArray.Float`
(471–473). -/
def Array.Float : GoJson.Array → GoInt → ℚ × Option GoStr
  | .errorArray e, _ => (0, some e)
  | .valueArray a, idx =>
    match validateIndex a idx with
    | some e => (0, some e)
    | none =>
      match getIdx a idx with
      | JValue.num q => (q, none)
      | v => (0, some (goIdxMismatchMsg idx v "float"))

/-- `Array.Int`: `valueArray.Int` (125–131) delegates to `Float` and
converts with `int(f)`; `errorArray.Int` (475–477). -/
def Array.Int : GoJson.Array → GoInt → GoInt × Option GoStr
  | .errorArray e, _ => (0, some e)
  | .valueArray a, idx =>
    match Array.Float (.valueArray a) idx with
    | (_, some e) => (0, some e)
    | (f, none) => (truncRat f, none)

/-- `Array.Bool`: `valueArray.Bool` (133–143), `errorArray.Bool`
(479–481). -/
def Array.Bool : GoJson.Array → GoInt → GoBool × Option GoStr
  | .errorArray e, _ => (false, some e)
  | .valueArray a, idx =>
    match validateIndex a idx with
    | some e => (false, some e)
    | none =>
      match getIdx a idx with
      | JValue.bool b => (b, none)
      | v => (false, some (goIdxMismatchMsg idx v "bool"))

/-- `Array.Map`: `valueArray.Map` (65–77), `errorArray.Map` (483–487)
returns an `errorMap` carrying the same error. -/
def Array.Map : GoJson.Array → GoInt → GoJson.Map
  | .errorArray e, _ => .errorMap e
  | .valueArray a, idx =>
    match validateIndex a idx with
    | some e => .errorMap e
    | none =>
      match getIdx a idx with
      | JValue.obj mm => .valueMap mm
      | v => .errorMap (goIdxMismatchMsg idx v "map")

/-- `Array.Array`: `valueArray.Array` (79–91), `errorArray.Array` (489–491)
returns the receiver itself. -/
def Array.Array : GoJson.Array → GoInt → GoJson.Array
  | .errorArray e, _ => .errorArray e
  | .valueArray a, idx =>
    match validateIndex a idx with
    | some e => .errorArray e
    | none =>
      match getIdx a idx with
      | JValue.arr xs => .valueArray xs
      | v => .errorArray (goIdxMismatchMsg idx v "array")

/-- `Array.Inner`: `valueArray.Inner` (497–499), `errorArray.Inner`
(493–495). -/
def Array.Inner : GoJson.Array → List JValue × Option GoStr
  | .valueArray a => (a, none)
  | .errorArray e => ([], some e)

/-- `Array.Bytes`: `valueArray.Bytes` (145–151) calls `json.Marshal(va)` on
the wrapper struct (no exported fields); `errorArray.Bytes` (455–457). -/
def Array.Bytes : GoJson.Array → Except GoStr JValue
  | .valueArray _ => .ok marshalStructNoExportedFields
  | .errorArray e => .error e

/-- `Array.MustBytes`: `valueArray.MustBytes` (153–159) marshals the inner
slice `va.a`; `errorArray.MustBytes` (501–503) panics. -/
def Array.MustBytes : GoJson.Array → Except GoStr JValue
  | .valueArray a => .ok (JValue.arr a)
  | .errorArray e => .error e

/-- `Array.MustLen`: `valueArray.MustLen` (93–95) returns the length;
`errorArray.MustLen` (459–461) panics. -/
def Array.MustLen : GoJson.Array → Except GoStr Nat
  | .valueArray a => .ok a.length
  | .errorArray e => .error e

/-- `Array.MustString`: `valueArray.MustString` (169–175) calls `String`
and panics on error; `errorArray.MustString` (431–433) panics. -/
def Array.MustString : GoJson.Array → GoInt → Except GoStr GoStr
  | .errorArray e, _ => .error e
  | .valueArray a, idx =>
    match Array.String (.valueArray a) idx with
    | (s, none) => .ok s
    | (_, some e) => .error e

/-- `Array.MustFloat`: `valueArray.MustFloat` (177–183), `errorArray`
(435–437). -/
def Array.MustFloat : GoJson.Array → GoInt → Except GoStr ℚ
  | .errorArray e, _ => .error e
  | .valueArray a, idx =>
    match Array.Float (.valueArray a) idx with
    | (f, none) => .ok f
    | (_, some e) => .error e

/-- `Array.MustInt`: `valueArray.MustInt` (185–191), `errorArray`
(439–441). -/
def Array.MustInt : GoJson.Array → GoInt → Except GoStr GoInt
  | .errorArray e, _ => .error e
  | .valueArray a, idx =>
    match Array.Int (.valueArray a) idx with
    | (i, none) => .ok i
    | (_, some e) => .error e

/-- `Array.MustBool`: `valueArray.MustBool` (193–199), `errorArray`
(443–445). -/
def Array.MustBool : GoJson.Array → GoInt → Except GoStr GoBool
  | .errorArray e, _ => .error e
  | .valueArray a, idx =>
    match Array.Bool (.valueArray a) idx with
    | (b, none) => .ok b
    | (_, some e) => .error e

/-- `Array.MustInner`: `valueArray.MustInner` (161–163), `errorArray`
(505–507). -/
def Array.MustInner : GoJson.Array → Except GoStr (List JValue)
  | .valueArray a => .ok a
  | .errorArray e => .error e

end GoJson

/-- path.go `appendKey` (lines 7–9): append `['key']` to a path. -/
def pathAppendKey (p : String) (key : String) : String :=
  p ++ "['" ++ key ++ "']"

/-- path.go `appendIndex` (lines 11–13): append `[idx]` to a path. -/
def pathAppendIndex (p : String) (idx : Int) : String :=
  p ++ "[" ++ toString idx ++ "]"

/-- `Map.validateKey` message of the path-tracking version (unnamed/part_002
lines 57–70): `key '%s' not found at path %s, valid keys: %+v`. -/
def lunaKeyNotFoundMsg (key : String) (p : String) (validKeys : List String) : String :=
  "key '" ++ key ++ "' not found at path " ++ p ++ ", valid keys: "
    ++ goJoin ", " validKeys

/-- Error template of the path-tracking navigation methods (`Map.Map`,
`Map.Array`, `Array.Map`, `Array.Array`): `item at path %s was a %T, not a
<want>`, where the path is the candidate (extended) path. -/
def pathMismatchMsg (p : String) (v : JValue) (want : String) : String :=
  "item at path " ++ p ++ " was a " ++ goType v ++ ", not a " ++ want

/-- `Map.String` mismatch message of the path-tracking version
(unnamed/part_002 line 82): `item with key '%s' at path %s was a %T, not a
string`. -/
def lunaKeyStrMismatchMsg (key : String) (p : String) (v : JValue) : String :=
  "item with key '" ++ key ++ "' at path " ++ p ++ " was a " ++ goType v
    ++ ", not a string"

namespace Luna

/-- unnamed/part_002 lines 11–15: `type Map struct` with the object, the
path so far, and the frozen error.  A nil Go map reads like an empty one. -/
structure Map where
  m : List (String × JValue)
  path : String
  err : Option String

/-- array.go lines 10–14: `type Array struct` with the slice, the path so
far, and the frozen error. -/
structure Array where
  a : List JValue
  path : String
  err : Option String

/-- unnamed/part_002 `NewMap` (lines 42–44). -/
def NewMap (m : List (String × JValue)) : Luna.Map := ⟨m, "$", none⟩

/-- array.go `NewArray` (lines 37–39). -/
def NewArray (a : List JValue) : Luna.Array := ⟨a, "$", none⟩

/-- unnamed/part_002 `Map.Err` (lines 53–55). -/
def Map.Err (m : Luna.Map) : Option GoStr := m.err

/-- unnamed/part_002 `Map.Has` (lines 162–168). -/
def Map.Has (m : Luna.Map) (key : GoStr) : GoBool × Option GoStr :=
  match m.err with
  | some e => (false, some e)
  | none => ((lookupKey key m.m).isSome, none)

/-- unnamed/part_002 `Map.validateKey` (lines 57–70): `Has` first (an error
state propagates), then the key-not-found message built from the requested
key, the current path, and the valid keys in iteration order `ord`. -/
def Map.validateKey (ord : KeyOrder) (m : Luna.Map) (key : GoStr) : Option GoStr :=
  match Map.Has m key with
  | (_, some e) => some e
  | (hasKey, none) =>
    if hasKey then none else some (lunaKeyNotFoundMsg key m.path (ord m.m))

/-- unnamed/part_002 `Map.String` (lines 72–85). -/
def Map.String (ord : KeyOrder) (m : Luna.Map) (key : GoStr) : GoStr × Option GoStr :=
  match m.err with
  | some e => ("", some e)
  | none =>
    match Map.validateKey ord m key with
    | some e => ("", some e)
    | none =>
      match lookupKey key m.m with
      | some (JValue.str s) => (s, none)
      | some v => ("", some (lunaKeyStrMismatchMsg key m.path v))
      | none => ("", some (lunaKeyStrMismatchMsg key m.path JValue.null))

/-- unnamed/part_002 `Map.Float` (lines 87–100); its mismatch message has
no quotes and no path, unlike `Map.String`. -/
def Map.Float (ord : KeyOrder) (m : Luna.Map) (key : GoStr) : ℚ × Option GoStr :=
  match m.err with
  | some e => (0, some e)
  | none =>
    match Map.validateKey ord m key with
    | some e => (0, some e)
    | none =>
      match lookupKey key m.m with
      | some (JValue.num q) => (q, none)
      | some v => (0, some (goKeyMismatchMsg key v "float"))
      | none => (0, some (goKeyMismatchMsg key JValue.null "float"))

/-- unnamed/part_002 `Map.Bool` (lines 102–115). -/
def Map.Bool (ord : KeyOrder) (m : Luna.Map) (key : GoStr) : GoBool × Option GoStr :=
  match m.err with
  | some e => (false, some e)
  | none =>
    match Map.validateKey ord m key with
    | some e => (false, some e)
    | none =>
      match lookupKey key m.m with
      | some (JValue.bool b) => (b, none)
      | some v => (false, some (goKeyMismatchMsg key v "bool"))
      | none => (false, some (goKeyMismatchMsg key JValue.null "bool"))

/-- unnamed/part_002 `Map.Map` (lines 118–131): an errored receiver is
returned unchanged; a failed step keeps the parent path `m.path`, while the
wrong-shape message reports the extended path `currPath`. -/
def Map.Map (ord : KeyOrder) (m : Luna.Map) (key : GoStr) : Luna.Map :=
  match m.err with
  | some _ => m
  | none =>
    match Map.validateKey ord m key with
    | some e => ⟨[], m.path, some e⟩
    | none =>
      match lookupKey key m.m with
      | some (JValue.obj mm) => ⟨mm, pathAppendKey m.path key, none⟩
      | some v => ⟨[], m.path, some (pathMismatchMsg (pathAppendKey m.path key) v "map")⟩
      | none => ⟨[], m.path, some (pathMismatchMsg (pathAppendKey m.path key) JValue.null "map")⟩

/-- unnamed/part_002 `Map.Array` (lines 134–147). -/
def Map.Array (ord : KeyOrder) (m : Luna.Map) (key : GoStr) : Luna.Array :=
  match m.err with
  | some e => ⟨[], m.path, some e⟩
  | none =>
    match Map.validateKey ord m key with
    | some e => ⟨[], m.path, some e⟩
    | none =>
      match lookupKey key m.m with
      | some (JValue.arr xs) => ⟨xs, pathAppendKey m.path key, none⟩
      | some v => ⟨[], m.path, some (pathMismatchMsg (pathAppendKey m.path key) v "array")⟩
      | none => ⟨[], m.path, some (pathMismatchMsg (pathAppendKey m.path key) JValue.null "array")⟩

/-- unnamed/part_002 `Map.Bytes` (lines 150–159): `json.Marshal(m)` on the
wrapper struct. -/
def Map.Bytes (m : Luna.Map) : Except GoStr JValue :=
  match m.err with
  | some e => .error e
  | none => .ok marshalStructNoExportedFields

/-- unnamed/part_002 `Map.Inner` (lines 171–176). -/
def Map.Inner (m : Luna.Map) : List (GoStr × JValue) × Option GoStr :=
  match m.err with
  | some e => ([], some e)
  | none => (m.m, none)

/-- array.go `Array.Err` (lines 222–225). -/
def Array.Err (a : Luna.Array) : Option GoStr := a.err

/-- array.go `Array.Len` (lines 178–184). -/
def Array.Len (a : Luna.Array) : Nat × Option GoStr :=
  match a.err with
  | some e => (0, some e)
  | none => (a.a.length, none)

/-- array.go `Array.Map` (lines 48–67): error and failed index validation
keep the parent path; a wrong shape keeps the parent path on the accessor
but reports the extended path in the message. -/
def Array.Map (a : Luna.Array) (idx : GoInt) : Luna.Map :=
  match a.err with
  | some e => ⟨[], a.path, some e⟩
  | none =>
    match validateIndex a.a idx with
    | some e => ⟨[], a.path, some e⟩
    | none =>
      match getIdx a.a idx with
      | JValue.obj mm => ⟨mm, pathAppendIndex a.path idx, none⟩
      | v => ⟨[], a.path, some (pathMismatchMsg (pathAppendIndex a.path idx) v "map")⟩

/-- array.go `Array.Array` (lines 69–88): an errored receiver is returned
unchanged. -/
def Array.Array (a : Luna.Array) (idx : GoInt) : Luna.Array :=
  match a.err with
  | some _ => a
  | none =>
    match validateIndex a.a idx with
    | some e => ⟨[], a.path, some e⟩
    | none =>
      match getIdx a.a idx with
      | JValue.arr xs => ⟨xs, pathAppendIndex a.path idx, none⟩
      | v => ⟨[], a.path, some (pathMismatchMsg (pathAppendIndex a.path idx) v "array")⟩

/-- array.go `Array.String` (lines 98–112). -/
def Array.String (a : Luna.Array) (idx : GoInt) : GoStr × Option GoStr :=
  match a.err with
  | some e => ("", some e)
  | none =>
    match validateIndex a.a idx with
    | some e => ("", some e)
    | none =>
      match getIdx a.a idx with
      | JValue.str s => (s, none)
      | v => ("", some (goIdxMismatchMsg idx v "string"))

/-- array.go `Array.Float` (lines 114–128). -/
def Array.Float (a : Luna.Array) (idx : GoInt) : ℚ × Option GoStr :=
  match a.err with
  | some e => (0, some e)
  | none =>
    match validateIndex a.a idx with
    | some e => (0, some e)
    | none =>
      match getIdx a.a idx with
      | JValue.num q => (q, none)
      | v => (0, some (goIdxMismatchMsg idx v "float"))

/-- array.go `Array.Bool` (lines 130–144). -/
def Array.Bool (a : Luna.Array) (idx : GoInt) : GoBool × Option GoStr :=
  match a.err with
  | some e => (false, some e)
  | none =>
    match validateIndex a.a idx with
    | some e => (false, some e)
    | none =>
      match getIdx a.a idx with
      | JValue.bool b => (b, none)
      | v => (false, some (goIdxMismatchMsg idx v "bool"))

/-- array.go `Array.Bytes` (lines 146–156): `json.Marshal(a)` on the
wrapper struct. -/
def Array.Bytes (a : Luna.Array) : Except GoStr JValue :=
  match a.err with
  | some e => .error e
  | none => .ok marshalStructNoExportedFields

/-- array.go `Array.Inner` is not present; `Array.MustInner` (lines
170–176) returns the slice or panics. -/
def Array.MustInner (a : Luna.Array) : Except GoStr (List JValue) :=
  match a.err with
  | some e => .error e
  | none => .ok a.a

end Luna

/-- Correspondence between an error-returning result and its `Must` twin:
the same value on a nil error, a panic carrying the same error otherwise. -/
def mustOf {α : Type} (p : α × Option String) : Except String α :=
  match p.2 with
  | some e => .error e
  | none => .ok p.1

/-- `charsLeadWith pat l` is true when `l` starts with `pat`. -/
def charsLeadWith : List Char → List Char → Bool
  | [], _ => true
  | _ :: _, [] => false
  | c :: cs, d :: ds => c = d && charsLeadWith cs ds

/-- `charsContain pat l` is true when `pat` occurs contiguously in `l`. -/
def charsContain (pat : List Char) : List Char → Bool
  | [] => charsLeadWith pat []
  | c :: rest => charsLeadWith pat (c :: rest) || charsContain pat rest

/-- `strContains s pat` is true when `pat` occurs as a substring of `s`;
used to state that an error message carries a key, a path or a valid key
textually. -/
def strContains (s pat : String) : Bool := charsContain pat.data s.data

/-- A navigation step of an accessor chain: `.Map(key)`/`.Array(key)` on a
Map accessor, `.Map(idx)`/`.Array(idx)` on an Array accessor. -/
inductive Step where
  | mapKey (key : String)
  | arrayKey (key : String)
  | mapIdx (idx : Int)
  | arrayIdx (idx : Int)

/-- A terminal call ending a chain. -/
inductive Term where
  | tString (key : String)
  | tFloat (key : String)
  | tBool (key : String)
  | tHas (key : String)
  | tInnerM
  | tBytesM
  | tStringI (idx : Int)
  | tFloatI (idx : Int)
  | tBoolI (idx : Int)
  | tLen
  | tBytesA

/-- The value component of a terminal result. -/
inductive TermVal where
  | vStr (s : String)
  | vFloat (q : ℚ)
  | vBool (b : Bool)
  | vHas (b : Bool)
  | vLen (n : Nat)
  | vObjRaw (fields : List (String × JValue))
  | vBytes (t : Option JValue)

/-- The accessor state during a chain: a Map accessor or an Array accessor
of the path-tracking implementation. -/
inductive ChainAcc where
  | mapAcc (m : Luna.Map)
  | arrAcc (a : Luna.Array)

/-- One navigation step; `none` when the step's receiver kind does not
match the accessor (such a chain is not typable in Go). -/
def applyStep (ord : KeyOrder) : ChainAcc → Step → Option ChainAcc
  | .mapAcc m, .mapKey key => some (.mapAcc (Luna.Map.Map ord m key))
  | .mapAcc m, .arrayKey key => some (.arrAcc (Luna.Map.Array ord m key))
  | .arrAcc a, .mapIdx idx => some (.mapAcc (Luna.Array.Map a idx))
  | .arrAcc a, .arrayIdx idx => some (.arrAcc (Luna.Array.Array a idx))
  | _, _ => none

/-- Run a navigation chain from an accessor. -/
def runNav (ord : KeyOrder) : ChainAcc → List Step → Option ChainAcc
  | acc, [] => some acc
  | acc, s :: rest =>
    match applyStep ord acc s with
    | none => none
    | some acc2 => runNav ord acc2 rest

/-- Run a terminal call on an accessor: the extracted value paired with the
returned error, `none` when the call's receiver kind does not match. -/
def runTerm (ord : KeyOrder) : ChainAcc → Term → Option (TermVal × Option String)
  | .mapAcc m, .tString key =>
    some (.vStr (Luna.Map.String ord m key).1, (Luna.Map.String ord m key).2)
  | .mapAcc m, .tFloat key =>
    some (.vFloat (Luna.Map.Float ord m key).1, (Luna.Map.Float ord m key).2)
  | .mapAcc m, .tBool key =>
    some (.vBool (Luna.Map.Bool ord m key).1, (Luna.Map.Bool ord m key).2)
  | .mapAcc m, .tHas key =>
    some (.vHas (Luna.Map.Has m key).1, (Luna.Map.Has m key).2)
  | .mapAcc m, .tInnerM =>
    some (.vObjRaw (Luna.Map.Inner m).1, (Luna.Map.Inner m).2)
  | .mapAcc m, .tBytesM =>
    match Luna.Map.Bytes m with
    | .ok t => some (.vBytes (some t), none)
    | .error e => some (.vBytes none, some e)
  | .arrAcc a, .tStringI idx =>
    some (.vStr (Luna.Array.String a idx).1, (Luna.Array.String a idx).2)
  | .arrAcc a, .tFloatI idx =>
    some (.vFloat (Luna.Array.Float a idx).1, (Luna.Array.Float a idx).2)
  | .arrAcc a, .tBoolI idx =>
    some (.vBool (Luna.Array.Bool a idx).1, (Luna.Array.Bool a idx).2)
  | .arrAcc a, .tLen =>
    some (.vLen (Luna.Array.Len a).1, (Luna.Array.Len a).2)
  | .arrAcc a, .tBytesA =>
    match Luna.Array.Bytes a with
    | .ok t => some (.vBytes (some t), none)
    | .error e => some (.vBytes none, some e)
  | _, _ => none

/-- A whole invocation: navigate from the document root, then run the
terminal call. -/
def runChain (ord : KeyOrder) (doc : List (String × JValue)) (steps : List Step)
    (term : Term) : Option (TermVal × Option String) :=
  match runNav ord (.mapAcc (Luna.NewMap doc)) steps with
  | none => none
  | some acc => runTerm ord acc term

/-- The error component of a chain result. -/
def errOfOut (o : Option (TermVal × Option String)) : Option String :=
  o.bind fun p => p.2

/-- Two error messages that differ at most in the order in which valid keys
are listed inside a key-not-found message. -/
def msgRel (s1 s2 : String) : Prop :=
  s1 = s2 ∨ ∃ key p ks1 ks2, ks1.Perm ks2 ∧
    s1 = lunaKeyNotFoundMsg key p ks1 ∧ s2 = lunaKeyNotFoundMsg key p ks2

/-- `errRel` lifts `msgRel` to optional errors. -/
def errRel : Option String → Option String → Prop
  | none, none => True
  | some e1, some e2 => msgRel e1 e2
  | _, _ => False

/-- Two Map accessors equal up to valid-keys ordering in the frozen error. -/
def mapRel (m1 m2 : Luna.Map) : Prop :=
  m1.m = m2.m ∧ m1.path = m2.path ∧ errRel m1.err m2.err

/-- Two Array accessors equal up to valid-keys ordering in the frozen
error. -/
def arrRel (a1 a2 : Luna.Array) : Prop :=
  a1.a = a2.a ∧ a1.path = a2.path ∧ errRel a1.err a2.err

/-- `accRel` lifts the accessor relations to chain states. -/
def accRel : ChainAcc → ChainAcc → Prop
  | .mapAcc m1, .mapAcc m2 => mapRel m1 m2
  | .arrAcc a1, .arrAcc a2 => arrRel a1 a2
  | _, _ => False

/-- `optAccRel` lifts `accRel` to optional chain states. -/
def optAccRel : Option ChainAcc → Option ChainAcc → Prop
  | none, none => True
  | some a1, some a2 => accRel a1 a2
  | _, _ => False

/-- Two chain results with the same extracted value whose errors differ at
most in valid-keys ordering. -/
def outRel : Option (TermVal × Option String) → Option (TermVal × Option String) → Prop
  | none, none => True
  | some (v1, e1), some (v2, e2) => v1 = v2 ∧ errRel e1 e2
  | _, _ => False

/-- The two-key document of the determinism counterexample. -/
def twoKeyDoc : List (String × JValue) := [("a", JValue.null), ("b", JValue.null)]

theorem charsLeadWith_self_append (p l : List Char) :
    charsLeadWith p (p ++ l) = true := by
  induction p with
  | nil => rfl
  | cons c cs ih => simp [charsLeadWith, ih]

theorem charsContain_of_mid (p l1 l2 : List Char) :
    charsContain p (l1 ++ (p ++ l2)) = true := by
  induction l1 with
  | nil =>
    simp only [List.nil_append]
    cases hpl : p ++ l2 with
    | nil =>
      obtain ⟨hp, -⟩ := List.append_eq_nil.mp hpl
      subst hp
      rfl
    | cons c rest =>
      have h := charsLeadWith_self_append p l2
      rw [hpl] at h
      simp [charsContain, h]
  | cons c cs ih =>
    simp [charsContain, ih]

theorem strContains_of_parts (s pat : String) (l1 l2 : List Char)
    (h : s.data = l1 ++ (pat.data ++ l2)) : strContains s pat = true := by
  unfold strContains
  rw [h]
  exact charsContain_of_mid _ _ _

theorem goJoin_decomp (sep : String) (ks : List String) (k : String) (hk : k ∈ ks) :
    ∃ l1 l2 : List Char, (goJoin sep ks).data = l1 ++ (k.data ++ l2) := by
  induction ks with
  | nil => cases hk
  | cons x xs ih =>
    rcases List.mem_cons.mp hk with hx | hxs
    · subst hx
      cases xs with
      | nil => exact ⟨[], [], by simp [goJoin]⟩
      | cons y ys =>
        exact ⟨[], (sep ++ goJoin sep (y :: ys)).data,
          by simp [goJoin, String.data_append]⟩
    · have hne : xs ≠ [] := by
        intro hx0
        rw [hx0] at hxs
        cases hxs
      obtain ⟨l1, l2, hd⟩ := ih hxs
      cases xs with
      | nil => exact absurd rfl hne
      | cons y ys =>
        refine ⟨(x ++ sep).data ++ l1, l2, ?_⟩
        show (x ++ sep ++ goJoin sep (y :: ys)).data = (x ++ sep).data ++ l1 ++ (k.data ++ l2)
        simp [String.data_append, hd]

/-- C1: the sticky-error law of json.go — on an errored accessor every
navigation call returns an errored accessor carrying the same error, and
every terminal call returns an error textually identical to the frozen one,
independent of the key or index argument. -/
theorem sticky_error_absorbing (ord : KeyOrder) (e key : String) (idx : Int) :
    GoJson.Map.Map ord (.errorMap e) key = .errorMap e ∧
    GoJson.Map.Array ord (.errorMap e) key = .errorArray e ∧
    GoJson.Array.Map (.errorArray e) idx = .errorMap e ∧
    GoJson.Array.Array (.errorArray e) idx = .errorArray e ∧
    (GoJson.Map.String ord (.errorMap e) key).2 = some e ∧
    (GoJson.Map.Float ord (.errorMap e) key).2 = some e ∧
    (GoJson.Map.Int ord (.errorMap e) key).2 = some e ∧
    (GoJson.Map.Bool ord (.errorMap e) key).2 = some e ∧
    (GoJson.Map.Has (.errorMap e) key).2 = some e ∧
    GoJson.Map.Bytes (.errorMap e) = .error e ∧
    (GoJson.Map.Inner (.errorMap e)).2 = some e ∧
    (GoJson.Array.Len (.errorArray e)).2 = some e ∧
    (GoJson.Array.String (.errorArray e) idx).2 = some e ∧
    (GoJson.Array.Float (.errorArray e) idx).2 = some e ∧
    (GoJson.Array.Int (.errorArray e) idx).2 = some e ∧
    (GoJson.Array.Bool (.errorArray e) idx).2 = some e ∧
    GoJson.Array.Bytes (.errorArray e) = .error e ∧
    (GoJson.Array.Inner (.errorArray e)).2 = some e :=
  ⟨rfl, rfl, rfl, rfl, rfl, rfl, rfl, rfl, rfl, rfl, rfl, rfl, rfl, rfl, rfl, rfl, rfl, rfl⟩

/-- C7: every typed terminal call on an errored accessor returns the zero
value of the requested type paired with the frozen error: `""` for String,
`0` for Float and Int, `false` for Bool, `0` for Len. -/
theorem errored_terminal_zero_values (ord : KeyOrder) (e key : String) (idx : Int) :
    GoJson.Map.String ord (.errorMap e) key = ("", some e) ∧
    GoJson.Map.Float ord (.errorMap e) key = (0, some e) ∧
    GoJson.Map.Int ord (.errorMap e) key = (0, some e) ∧
    GoJson.Map.Bool ord (.errorMap e) key = (false, some e) ∧
    GoJson.Array.Len (.errorArray e) = (0, some e) ∧
    GoJson.Array.String (.errorArray e) idx = ("", some e) ∧
    GoJson.Array.Float (.errorArray e) idx = (0, some e) ∧
    GoJson.Array.Int (.errorArray e) idx = (0, some e) ∧
    GoJson.Array.Bool (.errorArray e) idx = (false, some e) :=
  ⟨rfl, rfl, rfl, rfl, rfl, rfl, rfl, rfl, rfl⟩

/-- C8: index validation — every json.go array call with an index outside
`[0, length)` (negative included, and index 0 on an empty array included)
returns the error naming the invalid index and the valid range, before any
type coercion; `Len` on an empty non-errored array returns `(0, nil)`. -/
theorem index_validation (a : List JValue) (idx : Int)
    (h : idx < 0 ∨ (a.length : Int) ≤ idx) :
    GoJson.Array.String (.valueArray a) idx = ("", some (invalidIndexMsg idx a.length)) ∧
    GoJson.Array.Float (.valueArray a) idx = (0, some (invalidIndexMsg idx a.length)) ∧
    GoJson.Array.Int (.valueArray a) idx = (0, some (invalidIndexMsg idx a.length)) ∧
    GoJson.Array.Bool (.valueArray a) idx = (false, some (invalidIndexMsg idx a.length)) ∧
    GoJson.Array.Map (.valueArray a) idx = .errorMap (invalidIndexMsg idx a.length) ∧
    GoJson.Array.Array (.valueArray a) idx = .errorArray (invalidIndexMsg idx a.length) ∧
    GoJson.Array.Len (.valueArray []) = (0, none) := by
  have hv : validateIndex a idx = some (invalidIndexMsg idx a.length) := by
    unfold validateIndex invalidIndexMsg
    rw [if_pos h]
  refine ⟨?_, ?_, ?_, ?_, ?_, ?_, rfl⟩ <;>
    simp [GoJson.Array.String, GoJson.Array.Float, GoJson.Array.Int, GoJson.Array.Bool,
      GoJson.Array.Map, GoJson.Array.Array, hv]

/-- Witness for C8 at concrete inputs: index 0 on an empty array and a
negative index. -/
theorem index_validation_witness :
    ((0 : Int) < 0 ∨ (([] : List JValue).length : Int) ≤ 0) ∧
    GoJson.Array.Len (.valueArray []) = (0, none) ∧
    GoJson.Array.String (.valueArray []) 0
      = ("", some (invalidIndexMsg 0 0)) ∧
    GoJson.Array.Float (.valueArray [JValue.null]) (-1)
      = (0, some (invalidIndexMsg (-1) 1)) := by
  refine ⟨by decide, ?_, ?_, ?_⟩
  · exact (index_validation [] 0 (by decide)).2.2.2.2.2.2
  · exact (index_validation [] 0 (by decide)).1
  · exact (index_validation [JValue.null] (-1) (by decide)).2.1

/-- C9: the Int truncation policy of json.go — when the stored value is a
Number, `Int` returns it truncated toward zero; otherwise it returns 0 with
the type-mismatch error. -/
theorem int_truncation_policy (ord : KeyOrder) (m : List (String × JValue))
    (key : String) (a : List JValue) (idx : Int) :
    (∀ q : ℚ, lookupKey key m = some (JValue.num q) →
      GoJson.Map.Int ord (.valueMap m) key = (truncRat q, none)) ∧
    (∀ v : JValue, lookupKey key m = some v → (∀ q : ℚ, v ≠ JValue.num q) →
      GoJson.Map.Int ord (.valueMap m) key = (0, some (goKeyMismatchMsg key v "float"))) ∧
    (∀ q : ℚ, ¬(idx < 0 ∨ (a.length : Int) ≤ idx) → getIdx a idx = JValue.num q →
      GoJson.Array.Int (.valueArray a) idx = (truncRat q, none)) ∧
    (∀ v : JValue, ¬(idx < 0 ∨ (a.length : Int) ≤ idx) → getIdx a idx = v →
      (∀ q : ℚ, v ≠ JValue.num q) →
      GoJson.Array.Int (.valueArray a) idx = (0, some (goIdxMismatchMsg idx v "float"))) := by
  have hvnone : ∀ h : ¬(idx < 0 ∨ (a.length : Int) ≤ idx), validateIndex a idx = none := by
    intro h
    unfold validateIndex
    rw [if_neg h]
  refine ⟨?_, ?_, ?_, ?_⟩
  · intro q hq
    simp [GoJson.Map.Int, GoJson.Map.Float, GoJson.valueMapValidateKey,
      GoJson.valueMapMustHas, hq]
  · intro v hv hnv
    cases v with
    | num q => exact absurd rfl (hnv q)
    | null =>
      simp [GoJson.Map.Int, GoJson.Map.Float, GoJson.valueMapValidateKey,
        GoJson.valueMapMustHas, hv]
    | bool b =>
      simp [GoJson.Map.Int, GoJson.Map.Float, GoJson.valueMapValidateKey,
        GoJson.valueMapMustHas, hv]
    | str s =>
      simp [GoJson.Map.Int, GoJson.Map.Float, GoJson.valueMapValidateKey,
        GoJson.valueMapMustHas, hv]
    | arr xs =>
      simp [GoJson.Map.Int, GoJson.Map.Float, GoJson.valueMapValidateKey,
        GoJson.valueMapMustHas, hv]
    | obj fs =>
      simp [GoJson.Map.Int, GoJson.Map.Float, GoJson.valueMapValidateKey,
        GoJson.valueMapMustHas, hv]
  · intro q h hq
    simp [GoJson.Array.Int, GoJson.Array.Float, hvnone h, hq]
  · intro v h hv hnv
    cases v with
    | num q => exact absurd rfl (hnv q)
    | null => simp [GoJson.Array.Int, GoJson.Array.Float, hvnone h, hv]
    | bool b => simp [GoJson.Array.Int, GoJson.Array.Float, hvnone h, hv]
    | str s => simp [GoJson.Array.Int, GoJson.Array.Float, hvnone h, hv]
    | arr xs => simp [GoJson.Array.Int, GoJson.Array.Float, hvnone h, hv]
    | obj fs => simp [GoJson.Array.Int, GoJson.Array.Float, hvnone h, hv]

/-- Witness for C9: an integer view of 4.9 is 4 and of -4.9 is -4; a
non-number yields 0 with the type-mismatch error. -/
theorem int_truncation_policy_witness :
    GoJson.Map.Int insertionOrder (.valueMap [("k", JValue.num (mkRat 49 10))]) "k"
      = (4, none) ∧
    GoJson.Array.Int (.valueArray [JValue.num (mkRat (-49) 10)]) 0 = (-4, none) ∧
    GoJson.Array.Int (.valueArray [JValue.str "s"]) 0
      = (0, some (goIdxMismatchMsg 0 (JValue.str "s") "float")) := by
  have h1 := (int_truncation_policy insertionOrder [("k", JValue.num (mkRat 49 10))]
    "k" [JValue.num (mkRat (-49) 10)] 0).1 (mkRat 49 10) rfl
  have h2 := ((int_truncation_policy insertionOrder [] "k"
    [JValue.num (mkRat (-49) 10)] 0).2.2.1 (mkRat (-49) 10) (by decide) rfl)
  have h3 := ((int_truncation_policy insertionOrder [] "k"
    [JValue.str "s"] 0).2.2.2 (JValue.str "s") (by decide) rfl
    (fun q h => JValue.noConfusion h))
  refine ⟨?_, ?_, h3⟩
  · rw [h1]
    have : truncRat (mkRat 49 10) = 4 := by decide
    rw [this]
  · rw [h2]
    have : truncRat (mkRat (-49) 10) = -4 := by decide
    rw [this]

/-- C10 counterexample: the claim says no call on a `NewMap(nil)` /
`NewArray(nil)` accessor panics, but `MustString` on `NewMap(nil)` with any
key panics (modelled as `Except.error`) with the key-not-found error, since
the accessor is non-errored and the key is absent from the empty map. -/
theorem nil_container_counterexample :
    GoJson.Map.MustString insertionOrder (GoJson.NewMap []) "k"
      = Except.error "key not found: k, valid keys: " := rfl

/-- C10 (amended): `NewMap(nil)` and `NewArray(nil)` yield non-errored
accessors: `Err()` is nil, `Has(key)` is `(false, nil)` for every key and
`Len()` is `(0, nil)`, in both the interface-based and the path-tracking
implementation; no non-`Must` call on such an accessor panics, while
`Must*` calls panic only with an ordinary validation error. -/
theorem nil_container_ok (key : String) :
    GoJson.Map.Err (GoJson.NewMap []) = none ∧
    GoJson.Map.Has (GoJson.NewMap []) key = (false, none) ∧
    GoJson.Array.Err (GoJson.NewArray []) = none ∧
    GoJson.Array.Len (GoJson.NewArray []) = (0, none) ∧
    Luna.Map.Err (Luna.NewMap []) = none ∧
    Luna.Map.Has (Luna.NewMap []) key = (false, none) ∧
    Luna.Array.Err (Luna.NewArray []) = none ∧
    Luna.Array.Len (Luna.NewArray []) = (0, none) :=
  ⟨rfl, rfl, rfl, rfl, rfl, rfl, rfl, rfl⟩

/-- C5: `Bytes()` on an accessor built by `NewArray`/`NewMap` marshals the
wrapper struct (whose only field is unexported), so it emits the empty JSON
object with a nil error; re-decoding gives the empty object, which is not
structurally equal (even ignoring key order) to the original tree.
`MustBytes` marshals the inner container and shows the intended value. -/
theorem bytes_roundtrip_failure :
    GoJson.Array.Bytes (GoJson.NewArray [JValue.str "x"]) = Except.ok (JValue.obj []) ∧
    GoJson.Map.Bytes (GoJson.NewMap [("a", JValue.str "b")]) = Except.ok (JValue.obj []) ∧
    GoJson.Array.MustBytes (GoJson.NewArray [JValue.str "x"])
      = Except.ok (JValue.arr [JValue.str "x"]) ∧
    JValue.obj [] ≠ JValue.arr [JValue.str "x"] ∧
    JValue.obj [] ≠ JValue.obj [("a", JValue.str "b")] := by
  refine ⟨rfl, rfl, rfl, ?_, ?_⟩
  · intro h
    exact JValue.noConfusion h
  · intro h
    injection h with h2
    exact List.noConfusion h2

/-- C6: every `Must` twin of json.go except `MustBytes` has semantics
identical to its error-returning twin (`mustOf`): same value on a nil
error, a panic carrying the byte-identical error otherwise; `Bytes` and
`MustBytes` diverge on a non-errored accessor, because `Bytes` marshals the
wrapper struct while `MustBytes` marshals the inner container. -/
theorem must_twin_equivalence (ord : KeyOrder) (gm : GoJson.Map)
    (ga : GoJson.Array) (key : String) (idx : Int) :
    GoJson.Map.MustHas gm key = mustOf (GoJson.Map.Has gm key) ∧
    GoJson.Map.MustString ord gm key = mustOf (GoJson.Map.String ord gm key) ∧
    GoJson.Map.MustFloat ord gm key = mustOf (GoJson.Map.Float ord gm key) ∧
    GoJson.Map.MustInt ord gm key = mustOf (GoJson.Map.Int ord gm key) ∧
    GoJson.Map.MustBool ord gm key = mustOf (GoJson.Map.Bool ord gm key) ∧
    GoJson.Map.MustInner gm = mustOf (GoJson.Map.Inner gm) ∧
    GoJson.Array.MustString ga idx = mustOf (GoJson.Array.String ga idx) ∧
    GoJson.Array.MustFloat ga idx = mustOf (GoJson.Array.Float ga idx) ∧
    GoJson.Array.MustInt ga idx = mustOf (GoJson.Array.Int ga idx) ∧
    GoJson.Array.MustBool ga idx = mustOf (GoJson.Array.Bool ga idx) ∧
    GoJson.Array.MustLen ga = mustOf (GoJson.Array.Len ga) ∧
    GoJson.Array.MustInner ga = mustOf (GoJson.Array.Inner ga) ∧
    GoJson.Map.MustBytes (GoJson.NewMap [("x", JValue.str "y")])
      = Except.ok (JValue.obj [("x", JValue.str "y")]) ∧
    GoJson.Map.Bytes (GoJson.NewMap [("x", JValue.str "y")])
      = Except.ok (JValue.obj []) ∧
    GoJson.Map.MustBytes (GoJson.NewMap [("x", JValue.str "y")])
      ≠ GoJson.Map.Bytes (GoJson.NewMap [("x", JValue.str "y")]) := by
  refine ⟨?_, ?_, ?_, ?_, ?_, ?_, ?_, ?_, ?_, ?_, ?_, ?_, rfl, rfl, ?_⟩
  · cases gm <;> rfl
  · cases gm with
    | errorMap e => rfl
    | valueMap m =>
      rcases h : GoJson.Map.String ord (GoJson.Map.valueMap m) key with ⟨v, e?⟩
      cases e? <;> simp [GoJson.Map.MustString, mustOf, h]
  · cases gm with
    | errorMap e => rfl
    | valueMap m =>
      rcases h : GoJson.Map.Float ord (GoJson.Map.valueMap m) key with ⟨v, e?⟩
      cases e? <;> simp [GoJson.Map.MustFloat, mustOf, h]
  · cases gm with
    | errorMap e => rfl
    | valueMap m =>
      rcases h : GoJson.Map.Int ord (GoJson.Map.valueMap m) key with ⟨v, e?⟩
      cases e? <;> simp [GoJson.Map.MustInt, mustOf, h]
  · cases gm with
    | errorMap e => rfl
    | valueMap m =>
      rcases h : GoJson.Map.Bool ord (GoJson.Map.valueMap m) key with ⟨v, e?⟩
      cases e? <;> simp [GoJson.Map.MustBool, mustOf, h]
  · cases gm <;> rfl
  · cases ga with
    | errorArray e => rfl
    | valueArray a =>
      rcases h : GoJson.Array.String (GoJson.Array.valueArray a) idx with ⟨v, e?⟩
      cases e? <;> simp [GoJson.Array.MustString, mustOf, h]
  · cases ga with
    | errorArray e => rfl
    | valueArray a =>
      rcases h : GoJson.Array.Float (GoJson.Array.valueArray a) idx with ⟨v, e?⟩
      cases e? <;> simp [GoJson.Array.MustFloat, mustOf, h]
  · cases ga with
    | errorArray e => rfl
    | valueArray a =>
      rcases h : GoJson.Array.Int (GoJson.Array.valueArray a) idx with ⟨v, e?⟩
      cases e? <;> simp [GoJson.Array.MustInt, mustOf, h]
  · cases ga with
    | errorArray e => rfl
    | valueArray a =>
      rcases h : GoJson.Array.Bool (GoJson.Array.valueArray a) idx with ⟨v, e?⟩
      cases e? <;> simp [GoJson.Array.MustBool, mustOf, h]
  · cases ga <;> rfl
  · cases ga <;> rfl
  · intro h
    have h2 := Except.ok.inj h
    injection h2 with h3
    exact List.noConfusion h3

/-- C3: key-not-found error content of the path-tracking Map accessor — for
a non-errored accessor and an absent key, every typed extraction and every
navigation call with that key yields the error built from the requested
key, the current path, and the valid keys at that level; the message
textually contains the key, the path, and (for any legitimate iteration
order) every valid key of the object. -/
theorem key_not_found_content (ord : KeyOrder) (m : Luna.Map) (key : String)
    (hok : m.err = none) (habs : lookupKey key m.m = none) :
    Luna.Map.String ord m key
      = ("", some (lunaKeyNotFoundMsg key m.path (ord m.m))) ∧
    Luna.Map.Float ord m key
      = (0, some (lunaKeyNotFoundMsg key m.path (ord m.m))) ∧
    Luna.Map.Bool ord m key
      = (false, some (lunaKeyNotFoundMsg key m.path (ord m.m))) ∧
    (Luna.Map.Map ord m key).err
      = some (lunaKeyNotFoundMsg key m.path (ord m.m)) ∧
    (Luna.Map.Array ord m key).err
      = some (lunaKeyNotFoundMsg key m.path (ord m.m)) ∧
    strContains (lunaKeyNotFoundMsg key m.path (ord m.m)) key = true ∧
    strContains (lunaKeyNotFoundMsg key m.path (ord m.m)) m.path = true ∧
    ((ord m.m).Perm (m.m.map Prod.fst) → ∀ k', k' ∈ m.m.map Prod.fst →
      strContains (lunaKeyNotFoundMsg key m.path (ord m.m)) k' = true) := by
  have hval : Luna.Map.validateKey ord m key
      = some (lunaKeyNotFoundMsg key m.path (ord m.m)) := by
    simp [Luna.Map.validateKey, Luna.Map.Has, hok, habs]
  refine ⟨?_, ?_, ?_, ?_, ?_, ?_, ?_, ?_⟩
  · simp [Luna.Map.String, hok, hval]
  · simp [Luna.Map.Float, hok, hval]
  · simp [Luna.Map.Bool, hok, hval]
  · simp [Luna.Map.Map, hok, hval]
  · simp [Luna.Map.Array, hok, hval]
  · exact strContains_of_parts _ _ "key '".data
      (("' not found at path " ++ m.path ++ ", valid keys: "
        ++ goJoin ", " (ord m.m)).data)
      (by simp [lunaKeyNotFoundMsg, String.data_append])
  · exact strContains_of_parts _ _ ("key '" ++ key ++ "' not found at path ").data
      ((", valid keys: " ++ goJoin ", " (ord m.m)).data)
      (by simp [lunaKeyNotFoundMsg, String.data_append])
  · intro hperm k' hk'
    obtain ⟨l1, l2, hd⟩ := goJoin_decomp ", " (ord m.m) k' (hperm.mem_iff.mpr hk')
    exact strContains_of_parts _ _
      (("key '" ++ key ++ "' not found at path " ++ m.path ++ ", valid keys: ").data ++ l1)
      l2 (by simp [lunaKeyNotFoundMsg, String.data_append, hd])

/-- Witness for C3: scenario C of the spec — looking up `entries` at the
root of a document whose only key is `people` yields an error mentioning
both `entries` and `people`. -/
theorem key_not_found_content_witness :
    (Luna.Map.Array insertionOrder
        (Luna.NewMap [("people", JValue.arr [JValue.obj [("score", JValue.num (mkRat 179 2))]])])
        "entries").err
      = some "key 'entries' not found at path $, valid keys: people" ∧
    strContains "key 'entries' not found at path $, valid keys: people" "entries" = true ∧
    strContains "key 'entries' not found at path $, valid keys: people" "people" = true := by
  have h := key_not_found_content insertionOrder
    (Luna.NewMap [("people", JValue.arr [JValue.obj [("score", JValue.num (mkRat 179 2))]])])
    "entries" rfl rfl
  exact ⟨h.2.2.2.2.1, by decide, by decide⟩

/-- C2 counterexample: the claim says the failing key never appears in the
path reported by a failed navigation call, but a wrong-shape failure
reports the extended path — `Map("a")` on `{"a": "s"}` keeps the parent
path `$` on the returned accessor while its error text reports `$['a']`,
which contains the failing step `['a']`. -/
theorem path_freezing_counterexample :
    (Luna.Map.Map insertionOrder (Luna.NewMap [("a", JValue.str "s")]) "a").path = "$" ∧
    (Luna.Map.Map insertionOrder (Luna.NewMap [("a", JValue.str "s")]) "a").err
      = some "item at path $['a'] was a string, not a map" ∧
    strContains "item at path $['a'] was a string, not a map" "['a']" = true :=
  ⟨rfl, rfl, by decide⟩

/-- C2 (amended): every failed navigation call returns an accessor carrying
the parent's path unchanged; key-not-found and index-out-of-range errors
report only the parent path (the failing step never appears), while
wrong-shape errors report the extended path that includes the failing
step. -/
theorem path_freezing (ord : KeyOrder) (m : Luna.Map) (a : Luna.Array)
    (key : String) (idx : Int) :
    (m.err = none → lookupKey key m.m = none →
      (Luna.Map.Map ord m key).path = m.path ∧
      (Luna.Map.Map ord m key).err = some (lunaKeyNotFoundMsg key m.path (ord m.m)) ∧
      (Luna.Map.Array ord m key).path = m.path ∧
      (Luna.Map.Array ord m key).err = some (lunaKeyNotFoundMsg key m.path (ord m.m))) ∧
    (∀ v : JValue, m.err = none → lookupKey key m.m = some v →
      (∀ fs, v ≠ JValue.obj fs) →
      (Luna.Map.Map ord m key).path = m.path ∧
      (Luna.Map.Map ord m key).err
        = some (pathMismatchMsg (pathAppendKey m.path key) v "map")) ∧
    (∀ v : JValue, m.err = none → lookupKey key m.m = some v →
      (∀ xs, v ≠ JValue.arr xs) →
      (Luna.Map.Array ord m key).path = m.path ∧
      (Luna.Map.Array ord m key).err
        = some (pathMismatchMsg (pathAppendKey m.path key) v "array")) ∧
    (a.err = none → (idx < 0 ∨ (a.a.length : Int) ≤ idx) →
      (Luna.Array.Map a idx).path = a.path ∧
      (Luna.Array.Map a idx).err = some (invalidIndexMsg idx a.a.length) ∧
      (Luna.Array.Array a idx).path = a.path ∧
      (Luna.Array.Array a idx).err = some (invalidIndexMsg idx a.a.length)) ∧
    (∀ v : JValue, a.err = none → ¬(idx < 0 ∨ (a.a.length : Int) ≤ idx) →
      getIdx a.a idx = v → (∀ fs, v ≠ JValue.obj fs) →
      (Luna.Array.Map a idx).path = a.path ∧
      (Luna.Array.Map a idx).err
        = some (pathMismatchMsg (pathAppendIndex a.path idx) v "map")) ∧
    (∀ v : JValue, a.err = none → ¬(idx < 0 ∨ (a.a.length : Int) ≤ idx) →
      getIdx a.a idx = v → (∀ xs, v ≠ JValue.arr xs) →
      (Luna.Array.Array a idx).path = a.path ∧
      (Luna.Array.Array a idx).err
        = some (pathMismatchMsg (pathAppendIndex a.path idx) v "array")) := by
  have hbad : ∀ h : idx < 0 ∨ (a.a.length : Int) ≤ idx,
      validateIndex a.a idx = some (invalidIndexMsg idx a.a.length) := by
    intro h
    unfold validateIndex invalidIndexMsg
    rw [if_pos h]
  have hgood : ∀ h : ¬(idx < 0 ∨ (a.a.length : Int) ≤ idx),
      validateIndex a.a idx = none := by
    intro h
    unfold validateIndex
    rw [if_neg h]
  refine ⟨?_, ?_, ?_, ?_, ?_, ?_⟩
  · intro hok habs
    have hval : Luna.Map.validateKey ord m key
        = some (lunaKeyNotFoundMsg key m.path (ord m.m)) := by
      simp [Luna.Map.validateKey, Luna.Map.Has, hok, habs]
    refine ⟨?_, ?_, ?_, ?_⟩ <;> simp [Luna.Map.Map, Luna.Map.Array, hok, hval]
  · intro v hok hv hnv
    have hval : Luna.Map.validateKey ord m key = none := by
      simp [Luna.Map.validateKey, Luna.Map.Has, hok, hv]
    cases v with
    | obj fs => exact absurd rfl (hnv fs)
    | null => refine ⟨?_, ?_⟩ <;> simp [Luna.Map.Map, hok, hval, hv]
    | bool b => refine ⟨?_, ?_⟩ <;> simp [Luna.Map.Map, hok, hval, hv]
    | num q => refine ⟨?_, ?_⟩ <;> simp [Luna.Map.Map, hok, hval, hv]
    | str s => refine ⟨?_, ?_⟩ <;> simp [Luna.Map.Map, hok, hval, hv]
    | arr xs => refine ⟨?_, ?_⟩ <;> simp [Luna.Map.Map, hok, hval, hv]
  · intro v hok hv hnv
    have hval : Luna.Map.validateKey ord m key = none := by
      simp [Luna.Map.validateKey, Luna.Map.Has, hok, hv]
    cases v with
    | arr xs => exact absurd rfl (hnv xs)
    | null => refine ⟨?_, ?_⟩ <;> simp [Luna.Map.Array, hok, hval, hv]
    | bool b => refine ⟨?_, ?_⟩ <;> simp [Luna.Map.Array, hok, hval, hv]
    | num q => refine ⟨?_, ?_⟩ <;> simp [Luna.Map.Array, hok, hval, hv]
    | str s => refine ⟨?_, ?_⟩ <;> simp [Luna.Map.Array, hok, hval, hv]
    | obj fs => refine ⟨?_, ?_⟩ <;> simp [Luna.Map.Array, hok, hval, hv]
  · intro hok h
    refine ⟨?_, ?_, ?_, ?_⟩ <;> simp [Luna.Array.Map, Luna.Array.Array, hok, hbad h]
  · intro v hok h hv hnv
    cases v with
    | obj fs => exact absurd rfl (hnv fs)
    | null => refine ⟨?_, ?_⟩ <;> simp [Luna.Array.Map, hok, hgood h, hv]
    | bool b => refine ⟨?_, ?_⟩ <;> simp [Luna.Array.Map, hok, hgood h, hv]
    | num q => refine ⟨?_, ?_⟩ <;> simp [Luna.Array.Map, hok, hgood h, hv]
    | str s => refine ⟨?_, ?_⟩ <;> simp [Luna.Array.Map, hok, hgood h, hv]
    | arr xs => refine ⟨?_, ?_⟩ <;> simp [Luna.Array.Map, hok, hgood h, hv]
  · intro v hok h hv hnv
    cases v with
    | arr xs => exact absurd rfl (hnv xs)
    | null => refine ⟨?_, ?_⟩ <;> simp [Luna.Array.Array, hok, hgood h, hv]
    | bool b => refine ⟨?_, ?_⟩ <;> simp [Luna.Array.Array, hok, hgood h, hv]
    | num q => refine ⟨?_, ?_⟩ <;> simp [Luna.Array.Array, hok, hgood h, hv]
    | str s => refine ⟨?_, ?_⟩ <;> simp [Luna.Array.Array, hok, hgood h, hv]
    | obj fs => refine ⟨?_, ?_⟩ <;> simp [Luna.Array.Array, hok, hgood h, hv]

/-- Witness for C2 (amended) at concrete inputs: an absent key, a
wrong-shape key, and an out-of-range index. -/
theorem path_freezing_witness :
    (Luna.Map.Map insertionOrder (Luna.NewMap [("p", JValue.null)]) "q").path = "$" ∧
    (Luna.Map.Map insertionOrder (Luna.NewMap [("p", JValue.null)]) "q").err
      = some "key 'q' not found at path $, valid keys: p" ∧
    (Luna.Map.Map insertionOrder (Luna.NewMap [("a", JValue.str "s")]) "a").path = "$" ∧
    (Luna.Array.Map (Luna.NewArray []) 0).path = "$" ∧
    (Luna.Array.Map (Luna.NewArray []) 0).err
      = some "invalid index: 0; it should be between 0 and -1" := by
  have h1 := (path_freezing insertionOrder (Luna.NewMap [("p", JValue.null)])
    (Luna.NewArray []) "q" 0).1 rfl rfl
  have h2 := (path_freezing insertionOrder (Luna.NewMap [("a", JValue.str "s")])
    (Luna.NewArray []) "a" 0).2.1 (JValue.str "s") rfl rfl
    (fun fs hf => JValue.noConfusion hf)
  have h3 := (path_freezing insertionOrder (Luna.NewMap [("p", JValue.null)])
    (Luna.NewArray []) "q" 0).2.2.2.1 rfl (by decide)
  exact ⟨h1.1, h1.2.1, h2.1, h3.1, h3.2.1⟩

theorem errRel_refl : ∀ e? : Option String, errRel e? e?
  | none => trivial
  | some _ => Or.inl rfl

theorem mapRel_mapStep {ord1 ord2 : KeyOrder}
    (h1 : ∀ mm, (ord1 mm).Perm (mm.map Prod.fst))
    (h2 : ∀ mm, (ord2 mm).Perm (mm.map Prod.fst))
    {m1 m2 : Luna.Map} (hrel : mapRel m1 m2) (key : String) :
    mapRel (Luna.Map.Map ord1 m1 key) (Luna.Map.Map ord2 m2 key) := by
  obtain ⟨mm1, p1, e1⟩ := m1
  obtain ⟨mm2, p2, e2⟩ := m2
  obtain ⟨hm, hp, he⟩ := hrel
  dsimp only at hm hp he
  subst hm
  subst hp
  cases e1 with
  | some x =>
    cases e2 with
    | some y => exact ⟨rfl, rfl, he⟩
    | none => exact False.elim he
  | none =>
    cases e2 with
    | some y => exact False.elim he
    | none =>
      cases hlk : lookupKey key mm1 with
      | none =>
        simp [Luna.Map.Map, Luna.Map.validateKey, Luna.Map.Has, hlk, mapRel, errRel]
        exact Or.inr ⟨key, p1, ord1 mm1, ord2 mm1, (h1 mm1).trans (h2 mm1).symm, rfl, rfl⟩
      | some v =>
        cases v <;>
          simp [Luna.Map.Map, Luna.Map.validateKey, Luna.Map.Has, hlk, mapRel,
            errRel, msgRel]

theorem arrRel_mapArrStep {ord1 ord2 : KeyOrder}
    (h1 : ∀ mm, (ord1 mm).Perm (mm.map Prod.fst))
    (h2 : ∀ mm, (ord2 mm).Perm (mm.map Prod.fst))
    {m1 m2 : Luna.Map} (hrel : mapRel m1 m2) (key : String) :
    arrRel (Luna.Map.Array ord1 m1 key) (Luna.Map.Array ord2 m2 key) := by
  obtain ⟨mm1, p1, e1⟩ := m1
  obtain ⟨mm2, p2, e2⟩ := m2
  obtain ⟨hm, hp, he⟩ := hrel
  dsimp only at hm hp he
  subst hm
  subst hp
  cases e1 with
  | some x =>
    cases e2 with
    | some y => exact ⟨rfl, rfl, he⟩
    | none => exact False.elim he
  | none =>
    cases e2 with
    | some y => exact False.elim he
    | none =>
      cases hlk : lookupKey key mm1 with
      | none =>
        simp [Luna.Map.Array, Luna.Map.validateKey, Luna.Map.Has, hlk, arrRel, errRel]
        exact Or.inr ⟨key, p1, ord1 mm1, ord2 mm1, (h1 mm1).trans (h2 mm1).symm, rfl, rfl⟩
      | some v =>
        cases v <;>
          simp [Luna.Map.Array, Luna.Map.validateKey, Luna.Map.Has, hlk, arrRel,
            errRel, msgRel]

theorem mapRel_arrMapStep {a1 a2 : Luna.Array} (hrel : arrRel a1 a2) (idx : Int) :
    mapRel (Luna.Array.Map a1 idx) (Luna.Array.Map a2 idx) := by
  obtain ⟨xs1, p1, e1⟩ := a1
  obtain ⟨xs2, p2, e2⟩ := a2
  obtain ⟨hx, hp, he⟩ := hrel
  dsimp only at hx hp he
  subst hx
  subst hp
  cases e1 with
  | some x =>
    cases e2 with
    | some y => exact ⟨rfl, rfl, he⟩
    | none => exact False.elim he
  | none =>
    cases e2 with
    | some y => exact False.elim he
    | none =>
      cases hvi : validateIndex xs1 idx with
      | some e => simp [Luna.Array.Map, hvi, mapRel, errRel, msgRel]
      | none =>
        cases hv : getIdx xs1 idx <;>
          simp [Luna.Array.Map, hvi, hv, mapRel, errRel, msgRel]

theorem arrRel_arrStep {a1 a2 : Luna.Array} (hrel : arrRel a1 a2) (idx : Int) :
    arrRel (Luna.Array.Array a1 idx) (Luna.Array.Array a2 idx) := by
  obtain ⟨xs1, p1, e1⟩ := a1
  obtain ⟨xs2, p2, e2⟩ := a2
  obtain ⟨hx, hp, he⟩ := hrel
  dsimp only at hx hp he
  subst hx
  subst hp
  cases e1 with
  | some x =>
    cases e2 with
    | some y => exact ⟨rfl, rfl, he⟩
    | none => exact False.elim he
  | none =>
    cases e2 with
    | some y => exact False.elim he
    | none =>
      cases hvi : validateIndex xs1 idx with
      | some e => simp [Luna.Array.Array, hvi, arrRel, errRel, msgRel]
      | none =>
        cases hv : getIdx xs1 idx <;>
          simp [Luna.Array.Array, hvi, hv, arrRel, errRel, msgRel]

theorem termRel_preserved {ord1 ord2 : KeyOrder}
    (h1 : ∀ mm, (ord1 mm).Perm (mm.map Prod.fst))
    (h2 : ∀ mm, (ord2 mm).Perm (mm.map Prod.fst))
    {c1 c2 : ChainAcc} (hrel : accRel c1 c2) (t : Term) :
    outRel (runTerm ord1 c1 t) (runTerm ord2 c2 t) := by
  cases c1 with
  | mapAcc m1 =>
    cases c2 with
    | arrAcc a2 => exact False.elim hrel
    | mapAcc m2 =>
      obtain ⟨mm1, p1, e1⟩ := m1
      obtain ⟨mm2, p2, e2⟩ := m2
      obtain ⟨hm, hp, he⟩ := hrel
      dsimp only at hm hp he
      subst hm
      subst hp
      cases e1 with
      | some x =>
        cases e2 with
        | none => exact False.elim he
        | some y =>
          cases t <;>
            simp [runTerm, Luna.Map.String, Luna.Map.Float, Luna.Map.Bool,
              Luna.Map.Has, Luna.Map.Inner, Luna.Map.Bytes, outRel, errRel] <;>
            exact he
      | none =>
        cases e2 with
        | some y => exact False.elim he
        | none =>
          cases t with
          | tString key =>
            cases hlk : lookupKey key mm1 with
            | none =>
              simp [runTerm, Luna.Map.String, Luna.Map.validateKey, Luna.Map.Has,
                hlk, outRel, errRel]
              exact Or.inr ⟨key, p1, ord1 mm1, ord2 mm1,
                (h1 mm1).trans (h2 mm1).symm, rfl, rfl⟩
            | some v =>
              cases v <;>
                simp [runTerm, Luna.Map.String, Luna.Map.validateKey, Luna.Map.Has,
                  hlk, outRel, errRel, msgRel]
          | tFloat key =>
            cases hlk : lookupKey key mm1 with
            | none =>
              simp [runTerm, Luna.Map.Float, Luna.Map.validateKey, Luna.Map.Has,
                hlk, outRel, errRel]
              exact Or.inr ⟨key, p1, ord1 mm1, ord2 mm1,
                (h1 mm1).trans (h2 mm1).symm, rfl, rfl⟩
            | some v =>
              cases v <;>
                simp [runTerm, Luna.Map.Float, Luna.Map.validateKey, Luna.Map.Has,
                  hlk, outRel, errRel, msgRel]
          | tBool key =>
            cases hlk : lookupKey key mm1 with
            | none =>
              simp [runTerm, Luna.Map.Bool, Luna.Map.validateKey, Luna.Map.Has,
                hlk, outRel, errRel]
              exact Or.inr ⟨key, p1, ord1 mm1, ord2 mm1,
                (h1 mm1).trans (h2 mm1).symm, rfl, rfl⟩
            | some v =>
              cases v <;>
                simp [runTerm, Luna.Map.Bool, Luna.Map.validateKey, Luna.Map.Has,
                  hlk, outRel, errRel, msgRel]
          | tHas key => simp [runTerm, Luna.Map.Has, outRel, errRel]
          | tInnerM => simp [runTerm, Luna.Map.Inner, outRel, errRel]
          | tBytesM => simp [runTerm, Luna.Map.Bytes, outRel, errRel]
          | tStringI idx => simp [runTerm, outRel]
          | tFloatI idx => simp [runTerm, outRel]
          | tBoolI idx => simp [runTerm, outRel]
          | tLen => simp [runTerm, outRel]
          | tBytesA => simp [runTerm, outRel]
  | arrAcc a1 =>
    cases c2 with
    | mapAcc m2 => exact False.elim hrel
    | arrAcc a2 =>
      obtain ⟨xs1, p1, e1⟩ := a1
      obtain ⟨xs2, p2, e2⟩ := a2
      obtain ⟨hx, hp, he⟩ := hrel
      dsimp only at hx hp he
      subst hx
      subst hp
      cases e1 with
      | some x =>
        cases e2 with
        | none => exact False.elim he
        | some y =>
          cases t <;>
            simp [runTerm, Luna.Array.String, Luna.Array.Float, Luna.Array.Bool,
              Luna.Array.Len, Luna.Array.Bytes, outRel, errRel] <;>
            exact he
      | none =>
        cases e2 with
        | some y => exact False.elim he
        | none =>
          cases t with
          | tStringI idx =>
            cases hvi : validateIndex xs1 idx with
            | some e =>
              simp [runTerm, Luna.Array.String, hvi, outRel, errRel, msgRel]
            | none =>
              cases hv : getIdx xs1 idx <;>
                simp [runTerm, Luna.Array.String, hvi, hv, outRel, errRel, msgRel]
          | tFloatI idx =>
            cases hvi : validateIndex xs1 idx with
            | some e =>
              simp [runTerm, Luna.Array.Float, hvi, outRel, errRel, msgRel]
            | none =>
              cases hv : getIdx xs1 idx <;>
                simp [runTerm, Luna.Array.Float, hvi, hv, outRel, errRel, msgRel]
          | tBoolI idx =>
            cases hvi : validateIndex xs1 idx with
            | some e =>
              simp [runTerm, Luna.Array.Bool, hvi, outRel, errRel, msgRel]
            | none =>
              cases hv : getIdx xs1 idx <;>
                simp [runTerm, Luna.Array.Bool, hvi, hv, outRel, errRel, msgRel]
          | tLen => simp [runTerm, Luna.Array.Len, outRel, errRel]
          | tBytesA => simp [runTerm, Luna.Array.Bytes, outRel, errRel]
          | tString key => simp [runTerm, outRel]
          | tFloat key => simp [runTerm, outRel]
          | tBool key => simp [runTerm, outRel]
          | tHas key => simp [runTerm, outRel]
          | tInnerM => simp [runTerm, outRel]
          | tBytesM => simp [runTerm, outRel]

theorem navRel_preserved {ord1 ord2 : KeyOrder}
    (h1 : ∀ mm, (ord1 mm).Perm (mm.map Prod.fst))
    (h2 : ∀ mm, (ord2 mm).Perm (mm.map Prod.fst)) :
    ∀ (steps : List Step) {c1 c2 : ChainAcc}, accRel c1 c2 →
      optAccRel (runNav ord1 c1 steps) (runNav ord2 c2 steps) := by
  intro steps
  induction steps with
  | nil => intro c1 c2 h; exact h
  | cons s rest ih =>
    intro c1 c2 h
    cases c1 with
    | mapAcc m1 =>
      cases c2 with
      | arrAcc a2 => exact False.elim h
      | mapAcc m2 =>
        cases s with
        | mapKey key =>
          simpa [runNav, applyStep] using
            @ih (.mapAcc (Luna.Map.Map ord1 m1 key))
              (.mapAcc (Luna.Map.Map ord2 m2 key))
              (mapRel_mapStep h1 h2 h key)
        | arrayKey key =>
          simpa [runNav, applyStep] using
            @ih (.arrAcc (Luna.Map.Array ord1 m1 key))
              (.arrAcc (Luna.Map.Array ord2 m2 key))
              (arrRel_mapArrStep h1 h2 h key)
        | mapIdx idx => simp [runNav, applyStep, optAccRel]
        | arrayIdx idx => simp [runNav, applyStep, optAccRel]
    | arrAcc a1 =>
      cases c2 with
      | mapAcc m2 => exact False.elim h
      | arrAcc a2 =>
        cases s with
        | mapIdx idx =>
          simpa [runNav, applyStep] using
            @ih (.mapAcc (Luna.Array.Map a1 idx))
              (.mapAcc (Luna.Array.Map a2 idx))
              (mapRel_arrMapStep h idx)
        | arrayIdx idx =>
          simpa [runNav, applyStep] using
            @ih (.arrAcc (Luna.Array.Array a1 idx))
              (.arrAcc (Luna.Array.Array a2 idx))
              (arrRel_arrStep h idx)
        | mapKey key => simp [runNav, applyStep, optAccRel]
        | arrayKey key => simp [runNav, applyStep, optAccRel]

/-- C4 (amended): determinism up to valid-keys listing order — for a fixed
document and a fixed chain of navigation and terminal calls, any two
invocations (that is, any two legitimate map iteration orders) yield the
same success/failure outcome and the same extracted value, and their error
messages coincide except possibly in the order in which the valid keys are
listed inside a key-not-found message. -/
theorem determinism_up_to_key_order (doc : List (String × JValue))
    (steps : List Step) (term : Term) (ord1 ord2 : KeyOrder)
    (h1 : ∀ mm, (ord1 mm).Perm (mm.map Prod.fst))
    (h2 : ∀ mm, (ord2 mm).Perm (mm.map Prod.fst)) :
    outRel (runChain ord1 doc steps term) (runChain ord2 doc steps term) := by
  have hnav := @navRel_preserved ord1 ord2 h1 h2 steps
    (.mapAcc (Luna.NewMap doc)) (.mapAcc (Luna.NewMap doc))
    ⟨rfl, rfl, trivial⟩
  unfold runChain
  cases hn1 : runNav ord1 (.mapAcc (Luna.NewMap doc)) steps with
  | none =>
    cases hn2 : runNav ord2 (.mapAcc (Luna.NewMap doc)) steps with
    | none => trivial
    | some c2 => rw [hn1, hn2] at hnav; exact False.elim hnav
  | some c1 =>
    cases hn2 : runNav ord2 (.mapAcc (Luna.NewMap doc)) steps with
    | none => rw [hn1, hn2] at hnav; exact False.elim hnav
    | some c2 =>
      rw [hn1, hn2] at hnav
      exact termRel_preserved h1 h2 hnav term

/-- Witness for C4 (amended): two concrete iteration orders on a two-key
document, related results. -/
theorem determinism_up_to_key_order_witness :
    outRel (runChain insertionOrder twoKeyDoc [] (Term.tString "c"))
      (runChain reverseOrder twoKeyDoc [] (Term.tString "c")) :=
  determinism_up_to_key_order twoKeyDoc [] (Term.tString "c")
    insertionOrder reverseOrder
    (fun _ => List.Perm.refl _) (fun _ => List.reverse_perm _)

/-- C4 counterexample: the claim demands that the error message text be
identical across repeated invocations of the same chain on the same
document, but Go's map iteration order is unspecified: two legitimate
orders on the two-key document yield key-not-found messages listing the
valid keys as `a, b` and as `b, a`, so the results differ. -/
theorem determinism_counterexample :
    (insertionOrder twoKeyDoc).Perm (twoKeyDoc.map Prod.fst) ∧
    (reverseOrder twoKeyDoc).Perm (twoKeyDoc.map Prod.fst) ∧
    errOfOut (runChain insertionOrder twoKeyDoc [] (Term.tString "c"))
      = some "key 'c' not found at path $, valid keys: a, b" ∧
    errOfOut (runChain reverseOrder twoKeyDoc [] (Term.tString "c"))
      = some "key 'c' not found at path $, valid keys: b, a" ∧
    runChain insertionOrder twoKeyDoc [] (Term.tString "c")
      ≠ runChain reverseOrder twoKeyDoc [] (Term.tString "c") := by
  refine ⟨List.Perm.refl _, List.reverse_perm _, rfl, rfl, ?_⟩
  intro h
  have h2 := congrArg errOfOut h
  have e1 : errOfOut (runChain insertionOrder twoKeyDoc [] (Term.tString "c"))
      = some "key 'c' not found at path $, valid keys: a, b" := rfl
  have e2 : errOfOut (runChain reverseOrder twoKeyDoc [] (Term.tString "c"))
      = some "key 'c' not found at path $, valid keys: b, a" := rfl
  rw [e1, e2] at h2
  exact absurd (Option.some.inj h2) (by decide)
